import Mathlib

/-!
Verification of the leaflens-ai training scripts
(`training/prepare_dataset.py`, `training/train_mobilenet.py`,
`training/train_yolov8_cls.py`) against their natural-language
specification.

The scripts are one-shot batch programs.  Their pure core — label
matching, seeded train/validation splitting, and label-manifest
generation — is shallowly embedded below.  Third-party seeded shuffles
(numpy/sklearn `train_test_split` with `random_state=SEED`, and
`tf.data.Dataset.shuffle` with `seed=SEED`) are modelled as a concrete
deterministic Fisher-Yates-style shuffle driven by a linear
congruential generator keyed on the seed: the properties claimed of
them (determinism in the seed and the input, being a permutation, and
the sizes of the slices taken from the shuffled sequence) are exactly
the properties the model shares with the real generators.
-/

/-- `SEED = 42` in all three scripts. -/
def SEED : Nat := 42

/-- `VAL_RATIO = 0.2` in `prepare_dataset.py` (sklearn `test_size`). -/
def VAL_RATIO : ℚ := 1 / 5

/-- One step of a 64-bit linear congruential generator; stands in for the
seeded pseudo-random generators of numpy and tensorflow, which are
likewise deterministic functions of their seed. -/
def lcg (s : Nat) : Nat :=
  (6364136223846793005 * s + 1442695040888963407) % 18446744073709551616

/-- Fuel-indexed seeded shuffle: repeatedly pick a pseudo-random element
of the remaining list and emit it.  Models a seeded permutation draw. -/
def shuffleGo {α : Type} [DecidableEq α] : Nat → Nat → List α → List α
  | 0, _, l => l
  | _ + 1, _, [] => []
  | fuel + 1, s, x :: xs =>
    let l := x :: xs
    let y := l.getD (s % l.length) x
    y :: shuffleGo fuel (lcg s) (l.erase y)

/-- Seeded shuffle of a list: a deterministic function of the seed and
the list, producing a permutation of the list. -/
def shuffle {α : Type} [DecidableEq α] (seed : Nat) (l : List α) : List α :=
  shuffleGo l.length (lcg seed) l

/-- Model of sklearn `train_test_split(images, test_size=VAL_RATIO,
random_state=SEED)` as called by `save_split` and `copy_cocoa_data` in
`prepare_dataset.py`.  sklearn computes `n_test = ceil(test_size * n)`,
`n_train = n - n_test`, raises `ValueError` when either is zero, and
otherwise returns the slices `perm[n_test:]` (train) and
`perm[:n_test]` (test) of a seeded permutation of the input. -/
def train_test_split {α : Type} [DecidableEq α] (seed : Nat) (l : List α) :
    Except String (List α × List α) :=
  let n := l.length
  -- `(n + 4) / 5` is the natural-number form of `ceil(VAL_RATIO * n)`
  -- with `VAL_RATIO = 1/5`; the equality is the lemma `ceil_val_ratio`.
  let nTest := (n + 4) / 5
  let nTrain := n - nTest
  if nTest = 0 ∨ nTrain = 0 then
    .error "ValueError: resulting train or test set will be empty"
  else
    let p := shuffle seed l
    .ok (p.drop nTest, p.take nTest)

/-- Model of `save_split` in `prepare_dataset.py`: on an empty class it
returns without writing anything (no train/val files), otherwise it
splits the class images 80/20 with `train_test_split` and writes the
two slices.  The result is the (train, val) pair of file lists. -/
def save_split {α : Type} [DecidableEq α] (seed : Nat) (images : List α) :
    Except String (List α × List α) :=
  if images.isEmpty then .ok ([], []) else train_test_split seed images

/-- Model of the prepare-dataset main loop `for class_name, images in
images_by_class.items(): save_split(images, class_name)`: each class is
split by `save_split` applied to that class own image list. -/
def prepareSplits {α : Type} [DecidableEq α] (seed : Nat)
    (byClass : List (String × List α)) :
    List (String × Except String (List α × List α)) :=
  byClass.map (fun p => (p.1, save_split seed p.2))

/-- Model of the train/validation split of `train_mobilenet.py`:
the pooled dataset is shuffled with a fixed seed, enumerated, and an
example goes to validation when its position satisfies `idx % 5 == 0`
(`is_val`) and to training when `idx % 5 != 0` (`is_train`).
Returns the (train, val) pair. -/
def mobilenetSplit {α : Type} [DecidableEq α] (seed : Nat) (l : List α) :
    List α × List α :=
  let sh := shuffle seed l
  ((sh.enum.filter (fun p => !(p.1 % 5 == 0))).map Prod.snd,
   (sh.enum.filter (fun p => p.1 % 5 == 0)).map Prod.snd)


/-- `PV_LABEL_MAP` from `prepare_dataset.py`: PlantVillage label
substrings mapped to YOLO folder names, in insertion order. -/
def PV_LABEL_MAP : List ((String × String) × String) :=
  [(("corn", "common_rust"), "maize__rust"),
   (("corn", "healthy"), "maize__healthy"),
   (("tomato", "early_blight"), "tomato__early_blight"),
   (("tomato", "healthy"), "tomato__healthy")]

/-- `ALL_CLASSES` from `prepare_dataset.py`. -/
def ALL_CLASSES : List String :=
  ["cocoa__black_pod",
   "cocoa__healthy",
   "maize__rust",
   "maize__healthy",
   "tomato__early_blight",
   "tomato__healthy"]

/-- Python substring containment `needle in hay` on character lists. -/
def isSubList (needle hay : List Char) : Bool :=
  (List.range (hay.length + 1)).any (fun i => needle.isPrefixOf (hay.drop i))

/-- Python `name.lower()` as a character list. -/
def lowerChars (s : String) : List Char :=
  s.data.map Char.toLower

/-- The loop of `match_pv_label`: scan the (keyword, condition) pairs in
order and return the first folder whose keyword and condition are both
substrings of the lowered name. -/
def firstMatch : List ((String × String) × String) → List Char → Option String
  | [], _ => none
  | ((keyword, condition), folder) :: rest, nl =>
    if isSubList keyword.data nl && isSubList condition.data nl then some folder
    else firstMatch rest nl

/-- `match_pv_label` from `prepare_dataset.py`. -/
def match_pv_label (name : String) : Option String :=
  firstMatch PV_LABEL_MAP (lowerChars name)

/-- `create_class_dirs` from `prepare_dataset.py`: the (split, class)
directories it creates, in creation order. -/
def create_class_dirs : List (String × String) :=
  ["train", "val"].flatMap (fun split => ALL_CLASSES.map (fun cls => (split, cls)))

/-- `cocoa_mapping` from `copy_cocoa_data` in `prepare_dataset.py`. -/
def cocoa_mapping : List (String × String) :=
  [("cocoa_black_pod", "cocoa__black_pod"), ("healthy", "cocoa__healthy")]

/-- A PlantVillage example: an image payload (abstracted to a number)
and an integer label index. -/
structure PVExample where
  image : Nat
  label : Nat
deriving DecidableEq, Repr

/-- Python `dict.get` on an association list built by insertions with
distinct keys (first matching key wins). -/
def dictGet {κ β : Type} [DecidableEq κ] : List (κ × β) → κ → Option β
  | [], _ => none
  | (k, v) :: rest, key => if key = k then some v else dictGet rest key

/-- The `idx_to_folder` dictionary of `extract_plantvillage`: label
indices paired with the folder their name matches, built by enumerating
`label_names` and keeping the matched ones. -/
def idx_to_folder (labelNames : List String) : List (Nat × String) :=
  labelNames.enum.filterMap (fun p => (match_pv_label p.2).map (fun f => (p.1, f)))

/-- The scan loop of `extract_plantvillage`: walk the examples; an
example whose label index is in `idx_to_folder` is appended to its
folder as `(image, count)` and the running count is incremented; other
examples are passed over.  The output is the flat list of
(folder, image, count) triples, which determines `images_by_class`. -/
def extractGo (folderOf : List (Nat × String)) :
    List PVExample → Nat → List (String × Nat × Nat)
  | [], _ => []
  | e :: rest, count =>
    match dictGet folderOf e.label with
    | some folder => (folder, e.image, count) :: extractGo folderOf rest (count + 1)
    | none => extractGo folderOf rest count

/-- The label-matching chain of `train_mobilenet.py` `main`: map a
PlantVillage label name to a LeafLens index 0..5, or `none`. -/
def mobilenetMatch (name : String) : Option Nat :=
  let nl := lowerChars name
  if isSubList "tomato".data nl && isSubList "early".data nl &&
      isSubList "blight".data nl then some 4
  else if isSubList "tomato".data nl && isSubList "healthy".data nl then some 5
  else if (isSubList "maize".data nl || isSubList "corn".data nl) &&
      (isSubList "rust".data nl || isSubList "common_rust".data nl) then some 2
  else if (isSubList "maize".data nl || isSubList "corn".data nl) &&
      isSubList "healthy".data nl then some 3
  else none

/-- The `pv_to_leaf` dictionary of `train_mobilenet.py`: label indices
paired with their LeafLens index, only for matched label names. -/
def pv_to_leaf (labelNames : List String) : List (Nat × Nat) :=
  labelNames.enum.filterMap (fun p => (mobilenetMatch p.2).map (fun v => (p.1, v)))

/-- `filter_fn` of `train_mobilenet.py`: keep an example when its label
equals one of the valid (matched) label indices. -/
def mobilenetKeep (labelNames : List String) (e : PVExample) : Bool :=
  (pv_to_leaf labelNames).any (fun p => p.1 == e.label)

/-- `FOLDER_TO_LABEL` from `train_yolov8_cls.py`. -/
def FOLDER_TO_LABEL : List (String × String) :=
  [("cocoa__black_pod", "Cocoa:cocoa_black_pod"),
   ("cocoa__healthy", "Cocoa:healthy"),
   ("maize__rust", "Maize:maize_rust"),
   ("maize__healthy", "Maize:healthy"),
   ("tomato__early_blight", "Tomato:tomato_early_blight"),
   ("tomato__healthy", "Tomato:healthy")]

/-- Python `s.split(sep, 1)` restricted to the found case: the pieces
before and after the first occurrence of `sep`, or `none` when `sep`
does not occur (python then returns the one-element list `[s]`). -/
def pySplitOnce (sep : List Char) : List Char → Option (List Char × List Char)
  | [] => none
  | c :: rest =>
    if sep.isPrefixOf (c :: rest) then some ([], (c :: rest).drop sep.length)
    else
      match pySplitOnce sep rest with
      | some pq => some (c :: pq.1, pq.2)
      | none => none

/-- Python `s.capitalize()`: first character uppercased, the rest
lowercased. -/
def pyCapitalize : List Char → List Char
  | [] => []
  | c :: rest => Char.toUpper c :: rest.map Char.toLower

/-- The fallback branch of `generate_labels`: split the folder name on
the first `__`; when that yields two parts, build
`Crop:healthy` or `Crop:crop_condition`; otherwise keep the name. -/
def labelFallback (name : String) : String :=
  match pySplitOnce "__".data name.data with
  | some pq =>
    if pq.2 = "healthy".data then
      String.mk (pyCapitalize pq.1 ++ ':' :: "healthy".data)
    else
      String.mk (pyCapitalize pq.1 ++ ':' :: pq.1 ++ '_' :: pq.2)
  | none => name

/-- The per-name body of `generate_labels`: table lookup first, string
transformation fallback when the lookup misses. -/
def labelFor (name : String) : String :=
  match dictGet FOLDER_TO_LABEL name with
  | some label => label
  | none => labelFallback name

/-- `generate_labels` from `train_yolov8_cls.py`. -/
def generate_labels (model_names : List String) : List String :=
  model_names.map labelFor

/-- Python `"\n".join(labels)` on character lists. -/
def joinLines : List (List Char) → List Char
  | [] => []
  | [l] => l
  | l :: ls => l ++ '\n' :: joinLines ls

/-- The lines of a text: split on every newline character.  A text with
`k` newlines has `k + 1` lines. -/
def splitLines : List Char → List (List Char)
  | [] => [[]]
  | c :: rest =>
    if c = '\n' then [] :: splitLines rest
    else
      match splitLines rest with
      | [] => [[c]]
      | l :: ls => (c :: l) :: ls

/-- `LABELS` from `train_mobilenet.py`. -/
def LABELS : List String :=
  ["Cocoa:cocoa_black_pod",
   "Cocoa:healthy",
   "Maize:maize_rust",
   "Maize:healthy",
   "Tomato:tomato_early_blight",
   "Tomato:healthy"]

/-- The first statement of `main` in `train_yolov8_cls.py`: raise
`FileNotFoundError` when the dataset directory is missing, otherwise
continue into training. -/
def yoloMainCheck (datasetDirExists : Bool) : Except String Unit :=
  if !datasetDirExists then
    .error "FileNotFoundError: Dataset not found. Run prepare_dataset.py first."
  else .ok ()

/-- The examples of one class inside a pooled dataset whose elements are
tagged with their class name. -/
def classExamples (c : String) (l : List (String × Nat)) : List (String × Nat) :=
  l.filter (fun p => p.1 == c)

/-- The validation examples of one class under the mobilenet
modulo-five split at the fixed seed. -/
def mobilenetValFor (c : String) (l : List (String × Nat)) : List (String × Nat) :=
  (mobilenetSplit SEED l).2.filter (fun p => p.1 == c)

theorem shuffleGo_perm {α : Type} [DecidableEq α] :
    ∀ (fuel s : Nat) (l : List α), (shuffleGo fuel s l).Perm l := by
  intro fuel
  induction fuel with
  | zero => intro s l; simp [shuffleGo]
  | succ fuel ih =>
    intro s l
    match l with
    | [] => simp [shuffleGo]
    | x :: xs =>
      have hidx : s % (x :: xs).length < (x :: xs).length :=
        Nat.mod_lt _ (by simp)
      have hy : (x :: xs).getD (s % (x :: xs).length) x ∈ x :: xs := by
        rw [List.getD_eq_getElem?_getD, List.getElem?_eq_getElem hidx]
        exact List.getElem_mem hidx
      have hperm := List.perm_cons_erase hy
      have hstep : shuffleGo (fuel + 1) s (x :: xs) =
          (x :: xs).getD (s % (x :: xs).length) x ::
            shuffleGo fuel (lcg s)
              ((x :: xs).erase ((x :: xs).getD (s % (x :: xs).length) x)) := rfl
      rw [hstep]
      exact (List.Perm.cons _ (ih _ _)).trans hperm.symm

theorem shuffle_perm {α : Type} [DecidableEq α] (seed : Nat) (l : List α) :
    (shuffle seed l).Perm l :=
  shuffleGo_perm _ _ _

theorem shuffle_length {α : Type} [DecidableEq α] (seed : Nat) (l : List α) :
    (shuffle seed l).length = l.length :=
  (shuffle_perm seed l).length_eq

/-- The sklearn test-set size `ceil(VAL_RATIO * n)` as a natural-number
formula: the ceiling of `n / 5`. -/
theorem ceil_val_ratio (n : Nat) : Nat.ceil ( VAL_RATIO * (n : ℚ)) = (n + 4) / 5 := by
  rcases Nat.eq_zero_or_pos n with h0 | hpos
  · subst h0; simp [ VAL_RATIO]
  · have hm : (n + 4) / 5 ≠ 0 := by omega
    have h5 : 5 * ((n + 4) / 5) ≤ n + 4 := by omega
    have h6 : n ≤ 5 * ((n + 4) / 5) := by omega
    have hval : ( VAL_RATIO * (n : ℚ)) = (n : ℚ) / 5 := by
      rw [ VAL_RATIO]; ring
    rw [Nat.ceil_eq_iff hm, hval]
    have h5q : (5 : ℚ) * (((n + 4) / 5 : ℕ) : ℚ) ≤ (n : ℚ) + 4 := by
      exact_mod_cast h5
    have h6q : (n : ℚ) ≤ 5 * (((n + 4) / 5 : ℕ) : ℚ) := by
      exact_mod_cast h6
    constructor
    · rw [lt_div_iff₀ (by norm_num : (0 : ℚ) < 5)]
      rw [Nat.cast_sub (by omega : 1 ≤ (n + 4) / 5)]
      push_cast
      linarith
    · rw [div_le_iff₀ (by norm_num : (0 : ℚ) < 5)]
      linarith

/-- Unfolding of a successful `save_split`: either the class was empty
and both slices are empty, or the slices are the drop/take of the
seeded shuffle at the ceiling of one fifth of the class size. -/
theorem save_split_ok {α : Type} [DecidableEq α] (seed : Nat)
    (imgs t v : List α) (hok : save_split seed imgs = .ok (t, v)) :
    (imgs = [] ∧ t = [] ∧ v = []) ∨
      (imgs ≠ [] ∧
        t = (shuffle seed imgs).drop ((imgs.length + 4) / 5) ∧
        v = (shuffle seed imgs).take ((imgs.length + 4) / 5)) := by
  unfold save_split at hok
  cases he : imgs.isEmpty with
  | true =>
    left
    have : imgs = [] := List.isEmpty_iff.mp he
    rw [he] at hok
    simp at hok
    exact ⟨this, hok.1, hok.2⟩
  | false =>
    right
    have hne : imgs ≠ [] := by
      intro hc; rw [hc] at he; simp at he
    rw [he] at hok
    simp [train_test_split] at hok
    split at hok
    · cases hok
    · simp at hok
      exact ⟨hne, hok.1.symm, hok.2.symm⟩

/-- A successful `save_split` returns a permutation of its input split
into the two slices. -/
theorem save_split_ok_perm {α : Type} [DecidableEq α] (seed : Nat)
    (imgs t v : List α) (hok : save_split seed imgs = .ok (t, v)) :
    (t ++ v).Perm imgs := by
  rcases save_split_ok seed imgs t v hok with ⟨h0, ht, hv⟩ | ⟨_, ht, hv⟩
  · subst h0; subst ht; subst hv; rfl
  · subst ht; subst hv
    have hsplit := List.take_append_drop ((imgs.length + 4) / 5) (shuffle seed imgs)
    have hcomm := @List.perm_append_comm _
      ((shuffle seed imgs).drop ((imgs.length + 4) / 5))
      ((shuffle seed imgs).take ((imgs.length + 4) / 5))
    rw [hsplit] at hcomm
    exact hcomm.trans (shuffle_perm seed imgs)

/-- The validation slice of a successful `save_split` has exactly the
ceiling of one fifth of the class size, and the train slice holds the
rest. -/
theorem save_split_ok_lengths {α : Type} [DecidableEq α] (seed : Nat)
    (imgs t v : List α) (hok : save_split seed imgs = .ok (t, v)) :
    v.length = (imgs.length + 4) / 5 ∧ t.length = imgs.length - v.length := by
  rcases save_split_ok seed imgs t v hok with ⟨h0, ht, hv⟩ | ⟨hne, ht, hv⟩
  · subst h0; subst ht; subst hv; simp
  · subst ht; subst hv
    have hn : 1 ≤ imgs.length := by
      cases imgs with
      | nil => exact absurd rfl hne
      | cons a l => simp
    have hle : (imgs.length + 4) / 5 ≤ imgs.length := by omega
    constructor
    · rw [List.length_take, shuffle_length]
      omega
    · rw [List.length_drop, shuffle_length, List.length_take, shuffle_length]
      omega

/-- `save_split` succeeds on every class with at least two examples. -/
theorem save_split_isOk {α : Type} [DecidableEq α] (seed : Nat)
    (imgs : List α) (h2 : 2 ≤ imgs.length) :
    save_split seed imgs = .ok
      ((shuffle seed imgs).drop ((imgs.length + 4) / 5),
       (shuffle seed imgs).take ((imgs.length + 4) / 5)) := by
  have hne : imgs.isEmpty = false := by
    cases imgs with
    | nil => simp at h2
    | cons a l => simp
  have h1 : ¬((imgs.length + 4) / 5 = 0 ∨ imgs.length - (imgs.length + 4) / 5 = 0) := by
    omega
  unfold save_split
  rw [hne]
  rw [if_neg (by simp : ¬(false = true))]
  simp only [train_test_split]
  rw [if_neg h1]

/-- A successful `firstMatch` returns one of the folder names of its
entry table. -/
theorem firstMatch_mem (entries : List ((String × String) × String))
    (nl : List Char) (f : String) (h : firstMatch entries nl = some f) :
    f ∈ entries.map Prod.snd := by
  induction entries with
  | nil => simp [firstMatch] at h
  | cons e rest ih =>
    obtain ⟨⟨kw, cond⟩, folder⟩ := e
    by_cases hc : (isSubList kw.data nl && isSubList cond.data nl) = true
    · rw [firstMatch, if_pos hc] at h
      simp at h
      simp [h]
    · rw [firstMatch, if_neg hc] at h
      simp [ih h]

/-- `dictGet` finds only pairs of the association list. -/
theorem dictGet_mem {κ β : Type} [DecidableEq κ] (l : List (κ × β))
    (k : κ) (v : β) (h : dictGet l k = some v) : (k, v) ∈ l := by
  induction l with
  | nil => simp [dictGet] at h
  | cons e rest ih =>
    obtain ⟨k0, v0⟩ := e
    by_cases hk : k = k0
    · rw [dictGet, if_pos hk] at h
      simp at h
      simp [hk, h]
    · rw [dictGet, if_neg hk] at h
      simp [ih h]

/-- `dictGet` misses every key that heads no pair of the list. -/
theorem dictGet_eq_none {κ β : Type} [DecidableEq κ] (l : List (κ × β))
    (k : κ) (h : ∀ v, (k, v) ∉ l) : dictGet l k = none := by
  induction l with
  | nil => rfl
  | cons e rest ih =>
    obtain ⟨k0, v0⟩ := e
    have hk : k ≠ k0 := by
      intro hc; subst hc; exact h v0 (by simp)
    rw [dictGet, if_neg hk]
    exact ih (fun v hv => h v (List.mem_cons_of_mem _ hv))

/-- When a label name fails the matcher, the enumerated-and-filtered
dictionary built from the names has no entry at that index.  Covers
both `idx_to_folder` and `pv_to_leaf`. -/
theorem dictGet_enum_filterMap_none {β : Type} [DecidableEq β]
    (g : String → Option β) (lns : List String) (i : Nat) (name : String)
    (hname : lns[i]? = some name) (hmiss : g name = none) :
    dictGet (lns.enum.filterMap (fun p => (g p.2).map (fun v => (p.1, v)))) i
      = none := by
  apply dictGet_eq_none
  intro v hv
  rcases List.mem_filterMap.mp hv with ⟨⟨j, nm⟩, hmem, heq⟩
  rcases Option.map_eq_some'.mp heq with ⟨w, hw, hpair⟩
  have hji : j = i := congrArg Prod.fst hpair
  subst hji
  have : lns[j]? = some nm := List.mk_mem_enum_iff_getElem?.mp hmem
  rw [hname] at this
  have hnm : nm = name := by injection this with h'; exact h'.symm
  rw [hnm, hmiss] at hw
  cases hw

/-- Examples whose label index the dictionary misses contribute nothing
to the extraction scan: removing them leaves the output (including the
running count) unchanged. -/
theorem extractGo_skip (folderOf : List (Nat × String)) (i : Nat)
    (hmiss : dictGet folderOf i = none) :
    ∀ (exs : List PVExample) (c : Nat),
      extractGo folderOf exs c
        = extractGo folderOf (exs.filter (fun x => !(x.label == i))) c := by
  intro exs
  induction exs with
  | nil => intro c; rfl
  | cons e rest ih =>
    intro c
    by_cases hei : e.label = i
    · have hdrop : (!(e.label == i)) = false := by simp [hei]
      rw [List.filter_cons, hdrop]
      simp only [extractGo]
      rw [hei, hmiss]
      exact ih c
    · have hkeep : (!(e.label == i)) = true := by simp [hei]
      rw [List.filter_cons, hkeep]
      simp only [extractGo]
      cases hd : dictGet folderOf e.label with
      | none => exact ih c
      | some folder => rw [ih (c + 1)]

/-- When the dictionary misses a key, the `any`-equality scan over its
pairs is false. -/
theorem any_fst_eq_false {β : Type} (l : List (Nat × β)) (i : Nat)
    (hmiss : dictGet l i = none) : (l.any (fun p => p.1 == i)) = false := by
  induction l with
  | nil => rfl
  | cons e rest ih =>
    obtain ⟨k0, v0⟩ := e
    by_cases hk : i = k0
    · rw [dictGet, if_pos hk] at hmiss
      cases hmiss
    · rw [dictGet, if_neg hk] at hmiss
      simp only [List.any_cons, ih hmiss]
      simp [Ne.symm hk]

/-- Every triple the extraction scan emits carries a folder name drawn
from the dictionary values. -/
theorem extractGo_folder_mem (folderOf : List (Nat × String)) :
    ∀ (exs : List PVExample) (c : Nat) (f : String) (img cnt : Nat),
      (f, img, cnt) ∈ extractGo folderOf exs c → f ∈ folderOf.map Prod.snd := by
  intro exs
  induction exs with
  | nil => intro c f img cnt h; simp [extractGo] at h
  | cons e rest ih =>
    intro c f img cnt h
    simp only [extractGo] at h
    cases hd : dictGet folderOf e.label with
    | none => rw [hd] at h; exact ih c f img cnt h
    | some folder =>
      rw [hd] at h
      rcases List.mem_cons.mp h with heq | hmem
      · have hf : f = folder := congrArg Prod.fst heq
        subst hf
        exact List.mem_map_of_mem Prod.snd (dictGet_mem _ _ _ hd)
      · exact ih (c + 1) f img cnt hmem

/-- Every folder of `idx_to_folder` is a folder name of
`PV_LABEL_MAP`. -/
theorem idx_to_folder_snd_mem (lns : List String) (i : Nat) (f : String)
    (h : (i, f) ∈ idx_to_folder lns) : f ∈ PV_LABEL_MAP.map Prod.snd := by
  rcases List.mem_filterMap.mp h with ⟨⟨j, nm⟩, _, heq⟩
  rcases Option.map_eq_some'.mp heq with ⟨w, hw, hpair⟩
  have hwf : w = f := congrArg Prod.snd hpair
  subst hwf
  exact firstMatch_mem _ _ _ hw

/-- Counting the validation positions: among indices `c, c+1, ...` over
a list, the number with index divisible by five. -/
theorem length_filter_enumFrom {α : Type} (l : List α) :
    ∀ c : Nat, ((List.enumFrom c l).filter (fun p => p.1 % 5 == 0)).length
      = (l.length + c % 5 + 4) / 5 - (c % 5 + 4) / 5 := by
  induction l with
  | nil => intro c; simp
  | cons x xs ih =>
    intro c
    rw [List.enumFrom_cons, List.filter_cons]
    by_cases hc : c % 5 = 0
    · have hb : (((c, x).1 % 5 == 0) = true) := by simp [hc]
      rw [if_pos hb, List.length_cons, ih (c + 1)]
      simp only [List.length_cons]
      omega
    · have hb : ¬(((c, x).1 % 5 == 0) = true) := by simp [hc]
      rw [if_neg hb, ih (c + 1)]
      simp only [List.length_cons]
      omega

/-- The validation slice of the mobilenet modulo-five split takes the
ceiling of one fifth of the pooled dataset. -/
theorem mobilenetSplit_val_length {α : Type} [DecidableEq α] (seed : Nat)
    (l : List α) : (mobilenetSplit seed l).2.length = (l.length + 4) / 5 := by
  show ((((shuffle seed l).enum.filter
    (fun p => p.1 % 5 == 0)).map Prod.snd)).length = (l.length + 4) / 5
  rw [List.length_map]
  show ((List.enumFrom 0 (shuffle seed l)).filter
    (fun p => p.1 % 5 == 0)).length = (l.length + 4) / 5
  rw [length_filter_enumFrom (shuffle seed l) 0, shuffle_length]
  omega

/-- The two slices of the mobilenet modulo-five split are a permutation
of the pooled input. -/
theorem mobilenetSplit_perm {α : Type} [DecidableEq α] (seed : Nat)
    (l : List α) :
    ((mobilenetSplit seed l).1 ++ (mobilenetSplit seed l).2).Perm l := by
  show ((((shuffle seed l).enum.filter (fun p => !(p.1 % 5 == 0))).map Prod.snd)
      ++ (((shuffle seed l).enum.filter (fun p => p.1 % 5 == 0)).map Prod.snd)).Perm l
  rw [← List.map_append]
  have hf := List.filter_append_perm (fun p : Nat × α => p.1 % 5 == 0)
    (shuffle seed l).enum
  have hcomm := @List.perm_append_comm _
    ((shuffle seed l).enum.filter (fun p => !(p.1 % 5 == 0)))
    ((shuffle seed l).enum.filter (fun p => p.1 % 5 == 0))
  have hperm := hcomm.trans hf
  have hmap := hperm.map Prod.snd
  rw [List.enum_map_snd] at hmap
  exact hmap.trans (shuffle_perm seed l)

/-- On a duplicate-free input the two slices of the mobilenet split are
disjoint: no example lands both in training and in validation. -/
theorem mobilenetSplit_disjoint {α : Type} [DecidableEq α] (seed : Nat)
    (l : List α) (hnd : l.Nodup) :
    (mobilenetSplit seed l).1.Disjoint (mobilenetSplit seed l).2 := by
  intro a ha1 ha2
  have hshnd : (shuffle seed l).Nodup := ((shuffle_perm seed l).nodup_iff).mpr hnd
  rcases List.mem_map.mp ha1 with ⟨⟨i, b⟩, hpi, hb⟩
  rcases List.mem_map.mp ha2 with ⟨⟨j, b'⟩, hpj, hb'⟩
  rcases List.mem_filter.mp hpi with ⟨hienum, hpi5⟩
  rcases List.mem_filter.mp hpj with ⟨hjenum, hpj5⟩
  have hgi : (shuffle seed l)[i]? = some b := List.mk_mem_enum_iff_getElem?.mp hienum
  have hgj : (shuffle seed l)[j]? = some b' := List.mk_mem_enum_iff_getElem?.mp hjenum
  have hilt : i < (shuffle seed l).length := by
    rcases List.getElem?_eq_some.mp hgi with ⟨h, _⟩
    exact h
  have hab : b = b' := hb.trans hb'.symm
  have hij : i = j := by
    apply List.getElem?_inj hilt hshnd
    rw [hgi, hgj, hab]
  subst hij
  simp at hpi5 hpj5
  exact hpi5 hpj5

/-- A newline-free text is a single line. -/
theorem splitLines_no_newline (l : List Char) (h : '\n' ∉ l) :
    splitLines l = [l] := by
  induction l with
  | nil => rfl
  | cons c rest ih =>
    have hc : ¬(c = '\n') := by
      intro hc; exact h (by simp [hc])
    have hr : '\n' ∉ rest := fun hm => h (List.mem_cons_of_mem _ hm)
    rw [splitLines, if_neg hc, ih hr]

/-- Splitting after a newline-free first line peels it off. -/
theorem splitLines_append (l t : List Char) (h : '\n' ∉ l) :
    splitLines (l ++ '\n' :: t) = l :: splitLines t := by
  induction l with
  | nil => rw [List.nil_append, splitLines, if_pos rfl]
  | cons c rest ih =>
    have hc : ¬(c = '\n') := by
      intro hc; exact h (by simp [hc])
    have hr : '\n' ∉ rest := fun hm => h (List.mem_cons_of_mem _ hm)
    rw [List.cons_append, splitLines, if_neg hc, ih hr]

/-- Joining newline-free lines with newlines and splitting the result on
newlines gives back exactly the lines. -/
theorem splitLines_joinLines (ls : List (List Char)) (hne : ls ≠ [])
    (h : ∀ l ∈ ls, '\n' ∉ l) : splitLines (joinLines ls) = ls := by
  induction ls with
  | nil => exact absurd rfl hne
  | cons l ls ih =>
    cases ls with
    | nil => exact splitLines_no_newline l (h l (by simp))
    | cons l2 ls2 =>
      rw [show joinLines (l :: l2 :: ls2) = l ++ '\n' :: joinLines (l2 :: ls2)
        from rfl]
      rw [splitLines_append _ _ (h l (by simp))]
      rw [ih (by simp) (fun x hx => h x (List.mem_cons_of_mem _ hx))]

/-- Claim C1: re-running the split with the same seed (42) and the same
input set produces an identical partition — the (train, val) pair is a
deterministic function of the input and the fixed seed, for both the
per-class `save_split` of `prepare_dataset.py` and the shuffled
modulo-five split of `train_mobilenet.py`. -/
theorem claimC1_split_determinism {α : Type} [DecidableEq α]
    (imgs1 imgs2 : List α) (h : imgs1 = imgs2) :
    save_split SEED imgs1 = save_split SEED imgs2 ∧
    mobilenetSplit SEED imgs1 = mobilenetSplit SEED imgs2 := by
  subst h
  exact ⟨rfl, rfl⟩

/-- Witness for C1 at a concrete input. -/
theorem claimC1_witness :
    save_split SEED ([0, 1, 2] : List Nat) = save_split SEED [0, 1, 2] ∧
    mobilenetSplit SEED ([0, 1, 2] : List Nat) = mobilenetSplit SEED [0, 1, 2] :=
  claimC1_split_determinism [0, 1, 2] [0, 1, 2] rfl

/-- Claim C2: `generate_labels` returns a list of exactly the same
length as its input whose i-th element is the label computed for the
i-th class name, and the manifest text written with a newline join
splits back into exactly those labels — one line per class, line i for
class index i. -/
theorem claimC2_labels_length_order (names : List String) (i : Nat)
    (hi : i < names.length)
    (hnl : ∀ l ∈ generate_labels names, '\n' ∉ l.data) :
    (generate_labels names).length = names.length ∧
    (generate_labels names).getD i "" = labelFor (names.getD i "") ∧
    splitLines (joinLines ((generate_labels names).map String.data))
      = (generate_labels names).map String.data := by
  refine ⟨by simp [generate_labels], ?_, ?_⟩
  · simp [generate_labels, List.getD_eq_getElem?_getD, List.getElem?_map,
      List.getElem?_eq_getElem hi]
  · apply splitLines_joinLines
    · have hne : names ≠ [] := by
        intro h0
        subst h0
        simp at hi
      simpa [generate_labels] using hne
    · intro l hl
      rcases List.mem_map.mp hl with ⟨s, hs, hls⟩
      rw [← hls]
      exact hnl s hs

/-- Witness for C2 at the concrete six-class name list. -/
theorem claimC2_witness :
    (2 < ALL_CLASSES.length ∧
      ∀ l ∈ generate_labels ALL_CLASSES, '\n' ∉ l.data) ∧
    ((generate_labels ALL_CLASSES).length = ALL_CLASSES.length ∧
     (generate_labels ALL_CLASSES).getD 2 "" = labelFor (ALL_CLASSES.getD 2 "") ∧
     splitLines (joinLines ((generate_labels ALL_CLASSES).map String.data))
       = (generate_labels ALL_CLASSES).map String.data) :=
  ⟨⟨by decide, by decide⟩,
    claimC2_labels_length_order ALL_CLASSES 2 (by decide) (by decide)⟩

/-- Counterexample to claim C3 as stated: under the modulo-five split of
`train_mobilenet.py` the split of the cocoa examples is NOT a function
of the cocoa example list and the seed alone — adding one maize example
to the pool moves the single cocoa example out of validation. -/
theorem claimC3_counterexample :
    classExamples "cocoa" [("cocoa", 0)]
      = classExamples "cocoa" [("cocoa", 0), ("maize", 0)] ∧
    mobilenetValFor "cocoa" [("cocoa", 0)]
      ≠ mobilenetValFor "cocoa" [("cocoa", 0), ("maize", 0)] := by
  constructor
  · rfl
  · decide

/-- Claim C3 as amended: in `prepare_dataset.py` the split is a
fixed-seed 80/20 partition applied independently per class — the split
recorded for a class by the main loop is `save_split` of that class own
example list and the seed alone, with a validation slice of the ceiling
of one fifth of the class size; the modulo-five split of
`train_mobilenet.py` is instead a global split of the shuffled pooled
dataset and is not per-class independent. -/
theorem claimC3_per_class_split {α : Type} [DecidableEq α] (seed : Nat)
    (byClass : List (String × List α)) (c : String) (imgs t v : List α)
    (hmem : (c, imgs) ∈ byClass)
    (hok : save_split seed imgs = .ok (t, v)) :
    (c, save_split seed imgs) ∈ prepareSplits seed byClass ∧
    v.length = (imgs.length + 4) / 5 ∧
    t.length = imgs.length - v.length := by
  refine ⟨?_, (save_split_ok_lengths seed imgs t v hok).1,
    (save_split_ok_lengths seed imgs t v hok).2⟩
  exact List.mem_map.mpr ⟨(c, imgs), hmem, rfl⟩

/-- Witness for the amended C3 at a concrete one-class table. -/
theorem claimC3_witness :
    (("maize__rust", save_split 42 ([0, 1, 2, 3, 4] : List Nat)) ∈
        prepareSplits 42 [("maize__rust", [0, 1, 2, 3, 4])]) ∧
    ([3] : List Nat).length = (([0, 1, 2, 3, 4] : List Nat).length + 4) / 5 ∧
    ([0, 4, 1, 2] : List Nat).length
      = ([0, 1, 2, 3, 4] : List Nat).length - ([3] : List Nat).length :=
  claimC3_per_class_split 42 [("maize__rust", [0, 1, 2, 3, 4])] "maize__rust"
    [0, 1, 2, 3, 4] [0, 4, 1, 2] [3] (by decide) rfl

/-- Claim C4: for every class, a produced split is a true partition of
the class examples — train and val are disjoint, their union is a
permutation of the input, and train-count plus val-count equals the
total count; likewise the two slices of the mobilenet modulo-five
split partition the pooled input. -/
theorem claimC4_partition {α : Type} [DecidableEq α] (seed : Nat)
    (imgs t v : List α) (hok : save_split seed imgs = .ok (t, v))
    (hnd : imgs.Nodup) :
    (t ++ v).Perm imgs ∧ t.length + v.length = imgs.length ∧ t.Disjoint v ∧
    ((mobilenetSplit seed imgs).1 ++ (mobilenetSplit seed imgs).2).Perm imgs ∧
    (mobilenetSplit seed imgs).1.length + (mobilenetSplit seed imgs).2.length
      = imgs.length ∧
    (mobilenetSplit seed imgs).1.Disjoint (mobilenetSplit seed imgs).2 := by
  have hperm := save_split_ok_perm seed imgs t v hok
  have hlen : t.length + v.length = imgs.length := by
    have := hperm.length_eq
    simpa using this
  have hnd2 : (t ++ v).Nodup := (hperm.nodup_iff).mpr hnd
  have hdisj : t.Disjoint v := (List.nodup_append.mp hnd2).2.2
  have hmperm := mobilenetSplit_perm seed imgs
  have hmlen : (mobilenetSplit seed imgs).1.length
      + (mobilenetSplit seed imgs).2.length = imgs.length := by
    have := hmperm.length_eq
    simpa using this
  exact ⟨hperm, hlen, hdisj, hmperm, hmlen,
    mobilenetSplit_disjoint seed imgs hnd⟩

/-- Witness for C4 at a concrete ten-example class. -/
theorem claimC4_witness :
    (([4, 6, 8, 5, 7, 0, 2, 1] ++ [3, 9] : List Nat)).Perm
        [0, 1, 2, 3, 4, 5, 6, 7, 8, 9] ∧
    ([4, 6, 8, 5, 7, 0, 2, 1] : List Nat).length + ([3, 9] : List Nat).length
      = ([0, 1, 2, 3, 4, 5, 6, 7, 8, 9] : List Nat).length ∧
    ([4, 6, 8, 5, 7, 0, 2, 1] : List Nat).Disjoint [3, 9] ∧
    ((mobilenetSplit 42 ([0, 1, 2, 3, 4, 5, 6, 7, 8, 9] : List Nat)).1 ++
      (mobilenetSplit 42 ([0, 1, 2, 3, 4, 5, 6, 7, 8, 9] : List Nat)).2).Perm
        [0, 1, 2, 3, 4, 5, 6, 7, 8, 9] ∧
    (mobilenetSplit 42 ([0, 1, 2, 3, 4, 5, 6, 7, 8, 9] : List Nat)).1.length +
      (mobilenetSplit 42 ([0, 1, 2, 3, 4, 5, 6, 7, 8, 9] : List Nat)).2.length
      = ([0, 1, 2, 3, 4, 5, 6, 7, 8, 9] : List Nat).length ∧
    (mobilenetSplit 42 ([0, 1, 2, 3, 4, 5, 6, 7, 8, 9] : List Nat)).1.Disjoint
      (mobilenetSplit 42 ([0, 1, 2, 3, 4, 5, 6, 7, 8, 9] : List Nat)).2 :=
  claimC4_partition 42 [0, 1, 2, 3, 4, 5, 6, 7, 8, 9]
    [4, 6, 8, 5, 7, 0, 2, 1] [3, 9] rfl (by decide)

/-- Claim C5: for every class with at least 10 examples the split
succeeds and its validation slice is the ceiling of `VAL_RATIO` times
the class size — hence the floor or the ceiling of one fifth of the
class total; the validation slice of the mobilenet modulo-five split is
likewise the ceiling of one fifth of the pooled size. -/
theorem claimC5_val_fraction {α : Type} [DecidableEq α] (seed : Nat)
    (imgs : List α) (h10 : 10 ≤ imgs.length) :
    ∃ t v, save_split seed imgs = .ok (t, v) ∧
      v.length = Nat.ceil ( VAL_RATIO * (imgs.length : ℚ)) ∧
      (v.length = imgs.length / 5 ∨ v.length = imgs.length / 5 + 1) ∧
      (mobilenetSplit seed imgs).2.length = (imgs.length + 4) / 5 := by
  have hle : (imgs.length + 4) / 5 ≤ imgs.length := by omega
  refine ⟨_, _, save_split_isOk seed imgs (by omega), ?_, ?_,
    mobilenetSplit_val_length seed imgs⟩
  · rw [List.length_take, shuffle_length, ceil_val_ratio]
    exact min_eq_left hle
  · rw [List.length_take, shuffle_length, min_eq_left hle]
    omega

/-- Witness for C5 at a concrete ten-example class. -/
theorem claimC5_witness :
    ∃ t v, save_split 42 ([0, 1, 2, 3, 4, 5, 6, 7, 8, 9] : List Nat)
        = .ok (t, v) ∧
      v.length = Nat.ceil
        ( VAL_RATIO * (([0, 1, 2, 3, 4, 5, 6, 7, 8, 9] : List Nat).length : ℚ)) ∧
      (v.length = ([0, 1, 2, 3, 4, 5, 6, 7, 8, 9] : List Nat).length / 5 ∨
        v.length = ([0, 1, 2, 3, 4, 5, 6, 7, 8, 9] : List Nat).length / 5 + 1) ∧
      (mobilenetSplit 42 ([0, 1, 2, 3, 4, 5, 6, 7, 8, 9] : List Nat)).2.length
        = (([0, 1, 2, 3, 4, 5, 6, 7, 8, 9] : List Nat).length + 4) / 5 :=
  claimC5_val_fraction 42 [0, 1, 2, 3, 4, 5, 6, 7, 8, 9] (by decide)

/-- Claim C6: the lookup table and the string-transformation fallback of
manifest generation agree — for every entry of `FOLDER_TO_LABEL` the
fallback computes exactly the table value, so `generate_labels` gives
the same output whether or not the lookup succeeds on those names. -/
theorem claimC6_table_matches_fallback (p : String × String)
    (hp : p ∈ FOLDER_TO_LABEL) :
    labelFallback p.1 = p.2 ∧ labelFor p.1 = labelFallback p.1 := by
  fin_cases hp <;> exact ⟨by decide, by decide⟩

/-- Witness for C6 at a concrete table entry. -/
theorem claimC6_witness :
    labelFallback "maize__rust" = "Maize:maize_rust" ∧
    labelFor "maize__rust" = labelFallback "maize__rust" :=
  claimC6_table_matches_fallback ("maize__rust", "Maize:maize_rust") (by decide)

/-- Claim C7: a source label matching no keyword pair is dropped
silently — the prepare-dataset folder dictionary has no entry at its
index and the extraction scan ignores all examples carrying it
(unchanged output, no error), and the mobilenet mapping omits the index
so its dataset filter rejects those examples. -/
theorem claimC7_unmatched_dropped (lns : List String) (i : Nat)
    (name : String) (exs : List PVExample) (cnt : Nat) (e : PVExample)
    (hname : lns[i]? = some name)
    (h1 : match_pv_label name = none)
    (h2 : mobilenetMatch name = none)
    (he : e.label = i) :
    dictGet (idx_to_folder lns) i = none ∧
    extractGo (idx_to_folder lns) exs cnt
      = extractGo (idx_to_folder lns)
          (exs.filter (fun x => !(x.label == i))) cnt ∧
    dictGet (pv_to_leaf lns) i = none ∧
    mobilenetKeep lns e = false := by
  have ha : dictGet (idx_to_folder lns) i = none :=
    dictGet_enum_filterMap_none match_pv_label lns i name hname h1
  have hc : dictGet (pv_to_leaf lns) i = none :=
    dictGet_enum_filterMap_none mobilenetMatch lns i name hname h2
  refine ⟨ha, extractGo_skip _ i ha exs cnt, hc, ?_⟩
  unfold mobilenetKeep
  rw [he]
  exact any_fst_eq_false _ i hc

/-- Witness for C7 at a concrete unmatched label name. -/
theorem claimC7_witness :
    dictGet (idx_to_folder ["Apple___Apple_scab"]) 0 = none ∧
    extractGo (idx_to_folder ["Apple___Apple_scab"])
        ([⟨5, 0⟩] : List PVExample) 0
      = extractGo (idx_to_folder ["Apple___Apple_scab"])
          (([⟨5, 0⟩] : List PVExample).filter (fun x => !(x.label == 0))) 0 ∧
    dictGet (pv_to_leaf ["Apple___Apple_scab"]) 0 = none ∧
    mobilenetKeep ["Apple___Apple_scab"] ⟨5, 0⟩ = false :=
  claimC7_unmatched_dropped ["Apple___Apple_scab"] 0 "Apple___Apple_scab"
    ([⟨5, 0⟩] : List PVExample) 0 ⟨5, 0⟩ (by decide) (by decide) (by decide) rfl

/-- Claim C8: the YOLO training script fails fatally on a missing
dataset directory — its first step raises when the directory does not
exist and raises nothing there when it does. -/
theorem claimC8_missing_dataset_fatal :
    yoloMainCheck false
      = .error
          "FileNotFoundError: Dataset not found. Run prepare_dataset.py first." ∧
    yoloMainCheck true = .ok () :=
  ⟨rfl, rfl⟩

/-- Claim C9: class folder names are unique and drawn from a fixed
closed set of six — `ALL_CLASSES` has six pairwise-distinct names,
`create_class_dirs` creates exactly those six under each of the two
splits, and every folder written into (matched PlantVillage folders and
cocoa target folders) is a member of that set. -/
theorem claimC9_closed_class_set (name folder : String)
    (h : match_pv_label name = some folder) :
    ALL_CLASSES.Nodup ∧ ALL_CLASSES.length = 6 ∧
    (create_class_dirs.filter (fun p => p.1 == "train")).map Prod.snd
      = ALL_CLASSES ∧
    (create_class_dirs.filter (fun p => p.1 == "val")).map Prod.snd
      = ALL_CLASSES ∧
    folder ∈ ALL_CLASSES ∧
    ∀ p ∈ cocoa_mapping, p.2 ∈ ALL_CLASSES := by
  refine ⟨by decide, by decide, by decide, by decide, ?_, by decide⟩
  have hmem := firstMatch_mem PV_LABEL_MAP (lowerChars name) folder h
  have hsub : ∀ f ∈ PV_LABEL_MAP.map Prod.snd, f ∈ ALL_CLASSES := by decide
  exact hsub folder hmem

/-- Witness for C9 at a concrete matched label name. -/
theorem claimC9_witness :
    ALL_CLASSES.Nodup ∧ ALL_CLASSES.length = 6 ∧
    (create_class_dirs.filter (fun p => p.1 == "train")).map Prod.snd
      = ALL_CLASSES ∧
    (create_class_dirs.filter (fun p => p.1 == "val")).map Prod.snd
      = ALL_CLASSES ∧
    "maize__rust" ∈ ALL_CLASSES ∧
    ∀ p ∈ cocoa_mapping, p.2 ∈ ALL_CLASSES :=
  claimC9_closed_class_set "Corn___Common_rust" "maize__rust" (by decide)

/-- Claim C10: `match_pv_label` returns either `none` or one of only the
four non-cocoa classes, and every folder the PlantVillage extraction
writes into is one of those four — the cocoa folders are never
populated from the public dataset. -/
theorem claimC10_no_cocoa_from_pv (name : String) (lns : List String)
    (exs : List PVExample) (f : String) (img cnt : Nat)
    (hmem : (f, img, cnt) ∈ extractGo (idx_to_folder lns) exs 0) :
    (match_pv_label name = none ∨
      match_pv_label name ∈
        [some "maize__rust", some "maize__healthy",
         some "tomato__early_blight", some "tomato__healthy"]) ∧
    f ∈ ["maize__rust", "maize__healthy", "tomato__early_blight",
         "tomato__healthy"] := by
  constructor
  · cases hm : match_pv_label name with
    | none => exact Or.inl rfl
    | some g =>
      right
      have hg := firstMatch_mem PV_LABEL_MAP (lowerChars name) g hm
      have hfour : ∀ x ∈ PV_LABEL_MAP.map Prod.snd,
          some x ∈ [some "maize__rust", some "maize__healthy",
            some "tomato__early_blight", some "tomato__healthy"] := by decide
      exact hfour g hg
  · have hks := extractGo_folder_mem (idx_to_folder lns) exs 0 f img cnt hmem
    rcases List.mem_map.mp hks with ⟨⟨j, g⟩, hjg, hgf⟩
    have hpv : g ∈ PV_LABEL_MAP.map Prod.snd := idx_to_folder_snd_mem lns j g hjg
    have hgf2 : g = f := hgf
    subst hgf2
    have hsub : ∀ x ∈ PV_LABEL_MAP.map Prod.snd,
        x ∈ ["maize__rust", "maize__healthy", "tomato__early_blight",
          "tomato__healthy"] := by decide
    exact hsub g hpv

/-- Witness for C10 at a concrete extraction run. -/
theorem claimC10_witness :
    (match_pv_label "Corn___Common_rust" = none ∨
      match_pv_label "Corn___Common_rust" ∈
        [some "maize__rust", some "maize__healthy",
         some "tomato__early_blight", some "tomato__healthy"]) ∧
    "maize__rust" ∈ ["maize__rust", "maize__healthy",
      "tomato__early_blight", "tomato__healthy"] :=
  claimC10_no_cocoa_from_pv "Corn___Common_rust" ["Corn___Common_rust"]
    ([⟨7, 0⟩] : List PVExample) "maize__rust" 7 0 (by decide)
